import Mathlib

/-!
Verification development for CatSocks (src/CatSocks/CatSocks.py), a SOCKS5
proxy that relays TCP traffic through a cellular modem driven by AT commands
over a serial link.

Bytes are modelled as `Nat` (the value of the octet); byte strings as
`List Nat`; decoded text as `String`.  Each definition is a shallow embedding
of a function (or a code region) of CatSocks.py, named after it and annotated
with the source lines it translates.
-/

/-- Configuration constant `MAX_CHUNK_SIZE` (CatSocks.py line 37): bytes per
QISEND chunk. -/
def MAX_CHUNK_SIZE : Nat := 1024

/-- The chunking loop of `handle_client` (CatSocks.py lines 207-213):

    offset = 0
    while offset < len(data):
        chunk = data[offset:offset+MAX_CHUNK_SIZE]
        offset += len(chunk)
        modem.send_raw(chunk)

Returns, in order, the list of chunks handed to `modem.send_raw`. -/
def qisendChunks (data : List Nat) : List (List Nat) :=
  if h : data = [] then []
  else data.take MAX_CHUNK_SIZE :: qisendChunks (data.drop MAX_CHUNK_SIZE)
termination_by data.length
decreasing_by
  simp only [List.length_drop]
  have hpos : 0 < data.length := List.length_pos.mpr h
  simp only [MAX_CHUNK_SIZE]
  omega

/-- Python substring membership `pat in s` on character lists. -/
def containsSeq (pat : List Char) : List Char → Bool
  | [] => pat.isEmpty
  | c :: tl => pat.isPrefixOf (c :: tl) || containsSeq pat tl

/-- Python substring membership `pat in s` on strings. -/
def strContains (s pat : String) : Bool := containsSeq pat.toList s.toList

/-- The per-line success check of `open_tcp_direct_push` (CatSocks.py line
112): `f"+QIOPEN: {self.sock_id},0" in line or line == "CONNECT"`. -/
def qiopenLineSuccess (sockId : Nat) (line : String) : Bool :=
  strContains line ("+QIOPEN: " ++ toString sockId ++ ",0") || line == "CONNECT"

/-- The per-line recognized-result check of `open_tcp_direct_push`
(CatSocks.py line 115): `f"+QIOPEN: {self.sock_id}," in line`. -/
def qiopenLineResult (sockId : Nat) (line : String) : Bool :=
  strContains line ("+QIOPEN: " ++ toString sockId ++ ",")

/-- `open_tcp_direct_push` (CatSocks.py lines 101-120), as a function of the
complete response lines received before the 10-second deadline, scanned in
arrival order: a line passing the success check (line 112) returns True, else
a line passing the recognized-result check (line 115) returns False, and
exhausting the lines (the deadline firing) returns False (line 120). -/
def open_tcp_direct_push (sockId : Nat) : List String → Bool
  | [] => false
  | l :: ls =>
    if qiopenLineSuccess sockId l then true
    else if qiopenLineResult sockId l then false
    else open_tcp_direct_push sockId ls

/-- Bytes of an encoded ASCII string (Python `s.encode()`). -/
def strBytes (s : String) : List Nat := s.toList.map Char.toNat

/-- The QISEND command text of `send_raw` step 1 (CatSocks.py line 139):
`f"AT+QISEND={self.sock_id},{len(data)}\r"`. -/
def qisendCmd (sockId n : Nat) : String :=
  "AT+QISEND=" ++ toString sockId ++ "," ++ toString n ++ "\r"

/-- `_wait_for_prompt` (CatSocks.py lines 122-128) over the bytes arriving
before the `PROMPT_TIMEOUT` deadline: reads one byte at a time, discarding
every byte until the single prompt byte `>` (62) appears, and returns the
bytes following it; returns `none` (the deadline fires) if `>` never
arrives. -/
def dropThroughPrompt : List Nat → Option (List Nat)
  | [] => none
  | b :: bs => if b = 62 then some bs else dropThroughPrompt bs

/-- The ack-line read of `send_raw` step 4 (CatSocks.py lines 150-160):
accumulates bytes until the accumulated line ends with `\r\n` (13, 10),
returning the consumed line and the bytes after it; `none` if no complete
line appears before the `ACK_TIMEOUT` deadline. -/
def splitCRLF : List Nat → Option (List Nat × List Nat)
  | 13 :: 10 :: rest => some ([13, 10], rest)
  | b :: bs =>
    match splitCRLF bs with
    | none => none
    | some (l, r) => some (b :: l, r)
  | [] => none

/-- Error raised by `send_raw`: `TimeoutError("No '>' prompt")` (line 144) or
`TimeoutError("Timeout waiting for QISEND response")` (line 161). -/
inductive SendErr where
  | promptTimeout : SendErr
  | ackTimeout : SendErr
deriving DecidableEq

/-- `send_raw` (CatSocks.py lines 130-161) over the serial input bytes `s`
arriving before the respective deadlines.  Returns the ordered list of writes
performed on the channel together with the outcome: `.ok rest` carries the
serial bytes left unconsumed after the single dropped response line. -/
def send_raw (sockId : Nat) (data : List Nat) (s : List Nat) :
    List (List Nat) × Except SendErr (List Nat) :=
  let cmdW := strBytes (qisendCmd sockId data.length)
  match dropThroughPrompt s with
  | none => ([cmdW], .error .promptTimeout)
  | some s1 =>
    match splitCRLF s1 with
    | none => ([cmdW, data, [26]], .error .ackTimeout)
    | some (_line, rest) => ([cmdW, data, [26]], .ok rest)

/-- Python `bytes.decode(errors='ignore')` restricted to ASCII bytes: bytes
below 128 decode to themselves, others are dropped.  (CatSocks decodes all
serial text this way; notification and response lines are ASCII.) -/
def decodeChars (bs : List Nat) : List Char :=
  bs.filterMap (fun b => if b < 128 then some (Char.ofNat b) else none)

/-- The terminal-token check of `_send_at` (CatSocks.py line 94):
`"OK" in resp or "ERROR" in resp`. -/
def hasTerminalTokC (resp : List Char) : Bool :=
  containsSeq "OK".toList resp || containsSeq "ERROR".toList resp

/-- Serial-port input state: `inbuf` holds bytes already received by the OS
but not yet read by the program; `arrivals` the chunks that successive
`ser.read(self.ser.in_waiting or 1)` calls will return before the current
deadline. -/
structure SerialSt where
  inbuf : List Nat
  arrivals : List (List Nat)
deriving DecidableEq

/-- `self.ser.reset_input_buffer()` (CatSocks.py line 86): discards every
byte received but not yet read. -/
def reset_input_buffer (st : SerialSt) : SerialSt := { st with inbuf := [] }

/-- The steady part of the `_send_at` response loop (CatSocks.py lines
90-95) once the OS buffer is drained: each iteration reads the next arriving
chunk, decodes and appends it to `resp`, and stops once `resp` contains a
terminal token or the deadline fires (`arrivals` running out).  Returns the
accumulated response and the chunks left unread. -/
def sendAtLoop : List (List Nat) → List Char → List Char × List (List Nat)
  | [], resp => (resp, [])
  | a :: as, resp =>
    let r := resp ++ decodeChars a
    if hasTerminalTokC r then (r, as) else sendAtLoop as r

/-- The full `_send_at` response loop (CatSocks.py lines 88-95): the first
`ser.read(self.ser.in_waiting or 1)` returns every byte already waiting in
the OS buffer (if any), after which reads return arriving chunks. -/
def sendAtRead (st : SerialSt) (resp : List Char) : List Char × SerialSt :=
  match st.inbuf with
  | [] =>
    let p := sendAtLoop st.arrivals resp
    (p.1, ⟨[], p.2⟩)
  | b :: buf =>
    let r := resp ++ decodeChars (b :: buf)
    if hasTerminalTokC r then (r, ⟨[], st.arrivals⟩)
    else
      let p := sendAtLoop st.arrivals r
      (p.1, ⟨[], p.2⟩)

/-- `_send_at` (CatSocks.py lines 83-99): resets the input buffer, writes the
command (no input effect), then runs the accumulation loop and returns the
accumulated response text — in every case, without raising. -/
def _send_at (st : SerialSt) : List Char × SerialSt :=
  sendAtRead (reset_input_buffer st) []

/-- Error taxonomy the specification assigns to the command driver; the
source's `_send_at` never produces either value. -/
inductive CmdErr where
  | commandTimeout : CmdErr
  | commandRejected : CmdErr
deriving DecidableEq

/-- The outcome of one `_send_at` call on a fresh channel whose pre-deadline
arrivals are given: CatSocks.py lines 83-99 contain no `raise` and end in
`return resp`, so the outcome is always `Except.ok` of the accumulated
text. -/
def sendAtOutcome (arrivals : List (List Nat)) : Except CmdErr (List Char) :=
  Except.ok (_send_at ⟨[], arrivals⟩).1

/-- pyserial `ser.readline()` with `timeout=None`: blocks until a `\n` byte
(10) and returns everything up to and including it, together with the bytes
after it. -/
def pyReadline : List Nat → List Nat × List Nat
  | [] => ([], [])
  | b :: bs =>
    if b = 10 then ([10], bs)
    else
      let p := pyReadline bs
      (b :: p.1, p.2)

/-- Python `str.strip()` whitespace set. -/
def isPyWs (c : Char) : Bool :=
  c = ' ' || c = '\t' || c = '\n' || c = '\r' || c = Char.ofNat 11 || c = Char.ofNat 12

/-- Python `str.strip()`. -/
def pyStrip (cs : List Char) : List Char :=
  ((cs.dropWhile isPyWs).reverse.dropWhile isPyWs).reverse

/-- `line = modem.ser.readline().decode(errors='ignore').strip()` applied to
a raw line (CatSocks.py line 218), as a character list. -/
def lineText (lineB : List Nat) : List Char :=
  pyStrip (decodeChars lineB)

/-- Python `str.split(',')`. -/
def splitOnComma : List Char → List (List Char)
  | [] => [[]]
  | c :: tl =>
    let r := splitOnComma tl
    if c = ',' then [] :: r
    else
      match r with
      | [] => [[c]]
      | f :: rest => (c :: f) :: rest

/-- Python `int(s)` restricted to the unsigned decimal literals the modem
emits in notification length fields: a nonempty all-digit string parses to
its value, anything else models a `ValueError`. -/
def decDigitsToNat (cs : List Char) : Option Nat :=
  if cs ≠ [] ∧ cs.all (fun c => c.isDigit) then
    some (cs.foldl (fun acc c => acc * 10 + (c.toNat - 48)) 0)
  else none

/-- Action taken by one iteration of the Modem→Client branch. -/
inductive ModemAction where
  | deliver (payload : List Nat) : ModemAction
  | closed : ModemAction
  | ignore : ModemAction
deriving DecidableEq

/-- The Modem→Client branch of the relay loop (CatSocks.py lines 216-229):
read one URC header line; if it is a `+QIURC` line containing `recv`, parse
the length as `int(line.split(',')[-1])` and read exactly that many raw
bytes (the `while len(payload) < length` loop, line 223) which are then
sent verbatim to the client; if the line contains `closed`, leave the loop;
otherwise ignore the line.  Returns the action and the serial bytes left
for the next iteration; `none` models `int()` raising `ValueError`. -/
def modemToClientStep (s : List Nat) : Option (ModemAction × List Nat) :=
  let p := pyReadline s
  let line := lineText p.1
  if "+QIURC".toList.isPrefixOf line && containsSeq "recv".toList line then
    match decDigitsToNat ((splitOnComma line).getLastD []) with
    | none => none
    | some length => some (.deliver (p.2.take length), p.2.drop length)
  else if containsSeq "closed".toList line then
    some (.closed, p.2)
  else
    some (.ignore, p.2)

/-- `client_sock.recv(n)` under the blocking socket of the handshake phase:
returns exactly `n` bytes and the remainder, or `none` when the client input
is exhausted (a short read would make `struct.unpack` raise). -/
def takeN (n : Nat) (s : List Nat) : Option (List Nat × List Nat) :=
  if n ≤ s.length then some (s.take n, s.drop n) else none

/-- How `handle_client` leaves the connection after the SOCKS phase. -/
inductive COutcome where
  | closedNoReply : COutcome
  | closedAfterFail : COutcome
  | relaying : COutcome
deriving DecidableEq

/-- The SOCKS5 success reply of CatSocks.py line 192:
`b"\x05\x00\x00\x01" + b"\x00"*6`. -/
def socksOkReply : List Nat := [5, 0, 0, 1, 0, 0, 0, 0, 0, 0]

/-- The SOCKS5 failure reply of CatSocks.py line 190:
`b"\x05\x01\x00\x01" + b"\x00"*6`. -/
def socksFailReply : List Nat := [5, 1, 0, 1, 0, 0, 0, 0, 0, 0]

/-- The SOCKS phase of `handle_client` (CatSocks.py lines 166-192) as a
function of the client's input bytes and the result of
`modem.open_tcp_direct_push`.  Returns the ordered list of messages sent to
the client and the way the phase ends: `cmd != 1` (line 176) and an
unsupported address type (line 183) plainly `return`, closing the connection
in the `finally` block with nothing sent beyond the method-selection reply
`\x05\x00` (line 171); an open failure sends the failure reply and returns
(lines 190-191); success sends the success reply and enters the relay loop
(line 192).  `none` models `struct.unpack`/indexing failing on exhausted
client input. -/
def handle_client (inp : List Nat) (openOK : Bool) :
    Option (List (List Nat) × COutcome) := do
  let (g, s1) ← takeN 2 inp
  let (_, s2) ← takeN (g.getD 1 0) s1
  let (hdr, s3) ← takeN 4 s2
  if hdr.getD 1 0 ≠ 1 then
    return ([[5, 0]], COutcome.closedNoReply)
  else if hdr.getD 3 0 = 1 then
    let (_, s4) ← takeN 4 s3
    let (_, _s5) ← takeN 2 s4
    if openOK then return ([[5, 0], socksOkReply], COutcome.relaying)
    else return ([[5, 0], socksFailReply], COutcome.closedAfterFail)
  else if hdr.getD 3 0 = 3 then
    let (al, t1) ← takeN 1 s3
    let (_, t2) ← takeN (al.getD 0 0) t1
    let (_, _t3) ← takeN 2 t2
    if openOK then return ([[5, 0], socksOkReply], COutcome.relaying)
    else return ([[5, 0], socksFailReply], COutcome.closedAfterFail)
  else
    return ([[5, 0]], COutcome.closedNoReply)

/-- `_wait_for_rdy` (CatSocks.py lines 75-81) after consuming the given raw
lines from the serial port (opened with `timeout=None`, line 66): the loop
`while True: line = self.ser.readline()...` has returned exactly when some
line strips to `RDY`; there is no deadline check in the loop body. -/
def _wait_for_rdy_returned (lines : List (List Nat)) : Bool :=
  lines.any (fun l => lineText l == "RDY".toList)

/-- Claim C9 rendered for the boot wait: some deadline — a number of line
reads — exists after which the operation has terminated no matter what the
lines contain. -/
def waitForRdyHasDeadline : Prop :=
  ∃ d : Nat, ∀ lines : List (List Nat), lines.length = d →
    _wait_for_rdy_returned lines = true

/-- An atomic operation a `handle_client` thread performs on the shared
serial channel during `send_raw` (CatSocks.py lines 138-160). -/
inductive SerialOp where
  | write (bs : List Nat) : SerialOp
  | waitPrompt : SerialOp
  | readAckLine : SerialOp
deriving DecidableEq

/-- The channel operations of one `send_raw` call in program order
(CatSocks.py lines 138-160): write the QISEND command, wait for the prompt
byte, write the payload, write Ctrl-Z, consume the ack line. -/
def sendRawOps (sockId : Nat) (data : List Nat) : List SerialOp :=
  [SerialOp.write (strBytes (qisendCmd sockId data.length)),
   SerialOp.waitPrompt,
   SerialOp.write data,
   SerialOp.write [26],
   SerialOp.readAckLine]

/-- The operations a given thread (flag `b`) has performed in a trace, in
order. -/
def opsDone (trace : List (Bool × SerialOp)) (b : Bool) : List SerialOp :=
  (trace.filter (fun p => p.1 == b)).map Prod.snd

/-- `main` (CatSocks.py lines 48-62) starts one `handle_client` thread per
accepted client, all sharing the single `QuectelModem`; CatSocks.py takes no
lock anywhere, so the channel may observe any interleaving of two threads'
operation sequences: a trace is realizable iff each thread's operations
appear in it in program order. -/
def isInterleavingOf (trace : List (Bool × SerialOp))
    (t1 t2 : List SerialOp) : Bool :=
  opsDone trace true == t1 && opsDone trace false == t2

/-- A thread's command exchange (command write through ack consumption) is
open after a trace prefix if its command write has been issued but its final
ack read has not completed. -/
def exchangeOpen (done total : List SerialOp) : Bool :=
  decide (1 ≤ done.length) && decide (done.length < total.length)

/-- Whether some instant of the trace has both threads' exchanges open at
once. -/
def overlappingExchanges (trace : List (Bool × SerialOp))
    (t1 t2 : List SerialOp) : Bool :=
  (List.range (trace.length + 1)).any (fun i =>
    exchangeOpen (opsDone (trace.take i) true) t1
      && exchangeOpen (opsDone (trace.take i) false) t2)

/-- A realizable trace of two concurrent clients each relaying one byte:
thread B's QISEND command write lands between thread A's command write and
prompt wait — nothing in CatSocks.py prevents this schedule. -/
def overlapDemoTrace : List (Bool × SerialOp) :=
  [(true, SerialOp.write (strBytes (qisendCmd 0 1))),
   (false, SerialOp.write (strBytes (qisendCmd 0 1))),
   (true, SerialOp.waitPrompt),
   (true, SerialOp.write [65]),
   (true, SerialOp.write [26]),
   (true, SerialOp.readAckLine),
   (false, SerialOp.waitPrompt),
   (false, SerialOp.write [66]),
   (false, SerialOp.write [26]),
   (false, SerialOp.readAckLine)]

theorem qisendChunks_flatten (data : List Nat) :
    (qisendChunks data).flatten = data := by
  induction data using qisendChunks.induct with
  | case1 => simp [qisendChunks]
  | case2 d h ih =>
    rw [qisendChunks]
    simp only [h, dite_false, List.flatten_cons, ih, List.take_append_drop]

theorem qisendChunks_le (data : List Nat) :
    ∀ c ∈ qisendChunks data, c.length ≤ MAX_CHUNK_SIZE := by
  induction data using qisendChunks.induct with
  | case1 => simp [qisendChunks]
  | case2 d h ih =>
    rw [qisendChunks]
    simp only [h, dite_false, List.mem_cons]
    rintro c (rfl | hc)
    · exact List.length_take_le _ _
    · exact ih c hc

/-- C3: every payload handed to the client-to-modem send path is split into
chunks of at most `MAX_CHUNK_SIZE` bytes, one `send_raw` is issued per chunk
in original order, the chunks concatenated in order reconstruct the payload
bit-for-bit, and a (nonempty) payload of at most `MAX_CHUNK_SIZE` bytes is
sent as a single chunk. -/
theorem c3_chunked_send (data : List Nat) :
    (qisendChunks data).flatten = data
    ∧ (∀ c ∈ qisendChunks data, c.length ≤ MAX_CHUNK_SIZE)
    ∧ (0 < data.length → data.length ≤ MAX_CHUNK_SIZE →
        qisendChunks data = [data]) := by
  refine ⟨qisendChunks_flatten data, qisendChunks_le data, ?_⟩
  intro hpos hle
  have hne : data ≠ [] := by
    intro hnil; rw [hnil] at hpos; simp at hpos
  rw [qisendChunks]
  simp only [hne, dite_false]
  rw [List.take_of_length_le hle, List.drop_eq_nil_of_le hle]
  rw [qisendChunks]
  simp

/-- C3 witness: the chunking evaluated at a concrete 3-byte payload. -/
theorem c3_chunked_send_witness :
    (qisendChunks [7, 8, 9]).flatten = [7, 8, 9]
    ∧ qisendChunks [7, 8, 9] = [[7, 8, 9]] := by
  have h := c3_chunked_send [7, 8, 9]
  exact ⟨h.1, h.2.2 (by decide) (by decide)⟩

/-- C4 counterexample: a response stream consisting of the single bare line
"CONNECT" makes the open operation return success, yet no line of the stream
contains a code-0 result for the socket id — so success is NOT returned
exactly when a code-0 result line is received. -/
theorem c4_counterexample :
    open_tcp_direct_push 0 ["CONNECT"] = true
    ∧ strContains "CONNECT" "+QIOPEN: 0,0" = false := by
  constructor <;> rfl

/-- C4 (amended): the open operation returns success exactly when the first
line that passes either the success check (a code-0 result for the id, or the
bare line "CONNECT") or the recognized-result check passes the success check;
any other recognized result first yields failure, and absence of any such
line before the timeout yields failure. -/
theorem c4_open_result (sockId : Nat) (lines : List String) :
    open_tcp_direct_push sockId lines =
      (match lines.find?
          (fun l => qiopenLineSuccess sockId l || qiopenLineResult sockId l) with
       | some l => qiopenLineSuccess sockId l
       | none => false) := by
  induction lines with
  | nil => rfl
  | cons l ls ih =>
    by_cases hs : qiopenLineSuccess sockId l
    · simp [open_tcp_direct_push, List.find?, hs]
    · by_cases hr : qiopenLineResult sockId l
      · simp [open_tcp_direct_push, List.find?, hs, hr]
      · simp [open_tcp_direct_push, List.find?, hs, hr, ih]

theorem dropThroughPrompt_eq_none (s : List Nat) (h : (62 : Nat) ∉ s) :
    dropThroughPrompt s = none := by
  induction s with
  | nil => rfl
  | cons b bs ih =>
    have hb : b ≠ 62 := by
      intro hb; exact h (hb ▸ List.mem_cons_self b bs)
    have hbs : (62 : Nat) ∉ bs := fun hm => h (List.mem_cons_of_mem b hm)
    simp [dropThroughPrompt, hb, ih hbs]

/-- C5: the chunked send writes the send-length command; if the prompt byte
`>` does not arrive before the prompt deadline it fails with the prompt
timeout having written only the command; otherwise it writes the raw payload
followed by the terminator byte 0x1A, then consumes exactly one response line
(up to and including the first `\r\n`) and discards it, returning success for
any one-line result, or fails with the ack timeout if no complete line
arrives before the ack deadline. -/
theorem c5_send_raw (sockId : Nat) (data s : List Nat) :
    ((62 : Nat) ∉ s →
      send_raw sockId data s =
        ([strBytes (qisendCmd sockId data.length)],
         Except.error SendErr.promptTimeout))
    ∧ (∀ s1, dropThroughPrompt s = some s1 →
        (splitCRLF s1 = none →
          send_raw sockId data s =
            ([strBytes (qisendCmd sockId data.length), data, [26]],
             Except.error SendErr.ackTimeout))
        ∧ (∀ line rest, splitCRLF s1 = some (line, rest) →
            send_raw sockId data s =
              ([strBytes (qisendCmd sockId data.length), data, [26]],
               Except.ok rest))) := by
  constructor
  · intro h
    simp [send_raw, dropThroughPrompt_eq_none s h]
  · intro s1 h1
    constructor
    · intro h2
      simp [send_raw, h1, h2]
    · intro line rest h2
      simp [send_raw, h1, h2]

/-- C5 witness: `send_raw` evaluated on a concrete stream carrying a stray
byte, the prompt, and a one-line ack. -/
theorem c5_send_raw_witness :
    send_raw 0 [65, 66] [63, 62, 83, 13, 10, 99] =
      ([strBytes (qisendCmd 0 2), [65, 66], [26]], Except.ok [99]) :=
  ((c5_send_raw 0 [65, 66] [63, 62, 83, 13, 10, 99]).2
    [83, 13, 10, 99] rfl).2 [83, 13, 10] [99] rfl

theorem decodeChars_append (x y : List Nat) :
    decodeChars (x ++ y) = decodeChars x ++ decodeChars y :=
  List.filterMap_append x y _

theorem sendAtLoop_total (arrivals : List (List Nat)) (resp : List Char) :
    hasTerminalTokC (sendAtLoop arrivals resp).1 = true
    ∨ (sendAtLoop arrivals resp).1 = resp ++ decodeChars arrivals.flatten := by
  induction arrivals generalizing resp with
  | nil => right; simp [sendAtLoop, decodeChars]
  | cons a as ih =>
    simp only [sendAtLoop]
    by_cases htok : hasTerminalTokC (resp ++ decodeChars a) = true
    · left; simp [htok]
    · simp only [htok, Bool.false_eq_true, if_false]
      rcases ih (resp ++ decodeChars a) with h | h
      · left; exact h
      · right
        rw [h]
        simp [decodeChars_append, List.append_assoc]

theorem sendAtLoop_resp_extends (arrivals : List (List Nat)) (resp : List Char) :
    resp <+: (sendAtLoop arrivals resp).1 := by
  induction arrivals generalizing resp with
  | nil => simp [sendAtLoop]
  | cons a as ih =>
    simp only [sendAtLoop]
    by_cases htok : hasTerminalTokC (resp ++ decodeChars a) = true
    · simp only [htok, if_true]
      exact ⟨decodeChars a, rfl⟩
    · simp only [htok, Bool.false_eq_true, if_false]
      exact List.IsPrefix.trans ⟨decodeChars a, rfl⟩ (ih (resp ++ decodeChars a))

/-- C6 counterexample: on a response stream with no terminal token before
the deadline, `_send_at` returns the accumulated text as a normal result
(no command-timeout failure); on a stream carrying the error token it
likewise returns the text as a normal result (no command-rejected failure).
Errors are swallowed into the returned text, not surfaced as failures. -/
theorem c6_counterexample :
    sendAtOutcome [[88]] = Except.ok ['X']
    ∧ hasTerminalTokC ['X'] = false
    ∧ sendAtOutcome [[69, 82, 82, 79, 82]] = Except.ok ['E', 'R', 'R', 'O', 'R'] := by
  refine ⟨rfl, by decide, rfl⟩

/-- C6 (amended): `_send_at` never fails: it always returns the accumulated
response text, which either contains a terminal token (the loop broke on
`OK`/`ERROR`, including the rejection case) or is the decoding of everything
that arrived before the deadline (the timeout case, returned silently). -/
theorem c6_send_at_no_failure (arrivals : List (List Nat)) :
    ∃ r, sendAtOutcome arrivals = Except.ok r
      ∧ (hasTerminalTokC r = true ∨ r = decodeChars arrivals.flatten) := by
  refine ⟨(_send_at ⟨[], arrivals⟩).1, rfl, ?_⟩
  have h := sendAtLoop_total arrivals []
  simpa [_send_at, reset_input_buffer, sendAtRead] using h

/-- C10: `_send_at` clears the serial input buffer (line 86) before writing
the command, so its response and the state it leaves behind are identical to
a call made with an empty buffer — any bytes already received but unread,
including those of a pending asynchronous notification, are discarded.  Had
the buffer not been reset, those pending bytes would have been read first:
the loop run directly on the un-reset state starts its response with their
decoding. -/
theorem c10_send_at_clears_input (pending : List Nat) (arrivals : List (List Nat)) :
    _send_at ⟨pending, arrivals⟩ = _send_at ⟨[], arrivals⟩
    ∧ (pending ≠ [] →
        decodeChars pending <+: (sendAtRead ⟨pending, arrivals⟩ []).1) := by
  constructor
  · rfl
  · intro hne
    cases pending with
    | nil => exact absurd rfl hne
    | cons b buf =>
      simp only [sendAtRead]
      by_cases htok : hasTerminalTokC (decodeChars (b :: buf)) = true
      · simp [htok]
      · simp only [List.nil_append, htok, Bool.false_eq_true, if_false]
        exact sendAtLoop_resp_extends arrivals (decodeChars (b :: buf))

/-- C10 witness: one pending byte, nothing arriving afterwards. -/
theorem c10_send_at_clears_input_witness :
    _send_at ⟨[88], []⟩ = _send_at ⟨[], []⟩
    ∧ decodeChars [88] <+: (sendAtRead ⟨[88], []⟩ []).1 :=
  ⟨(c10_send_at_clears_input [88] []).1,
   (c10_send_at_clears_input [88] []).2 (by decide)⟩

theorem pyReadline_append (lineBody rest2 : List Nat)
    (h : (10 : Nat) ∉ lineBody) :
    pyReadline (lineBody ++ 10 :: rest2) = (lineBody ++ [10], rest2) := by
  induction lineBody with
  | nil => simp [pyReadline]
  | cons b bs ih =>
    have hb : b ≠ 10 := by
      intro hb; exact h (hb ▸ List.mem_cons_self b bs)
    have hbs : (10 : Nat) ∉ bs := fun hm => h (List.mem_cons_of_mem b hm)
    simp [pyReadline, hb, ih hbs]

/-- C2: a receive-notification line announcing length `n` makes the
demultiplexer consume exactly `n` raw bytes from the channel before the next
line is interpreted — the `n` bytes are arbitrary (they may contain line
breaks or protocol tokens) — and deliver them verbatim to the owning client
connection, leaving exactly the bytes after them for the next line read. -/
theorem c2_recv_notification (lineBody payload rest : List Nat) (n : Nat)
    (hNoNl : (10 : Nat) ∉ lineBody)
    (hStart : "+QIURC".toList.isPrefixOf (lineText (lineBody ++ [10])) = true)
    (hRecv : containsSeq "recv".toList (lineText (lineBody ++ [10])) = true)
    (hLen : decDigitsToNat ((splitOnComma (lineText (lineBody ++ [10]))).getLastD [])
              = some n)
    (hPay : payload.length = n) :
    modemToClientStep (lineBody ++ 10 :: (payload ++ rest)) =
      some (ModemAction.deliver payload, rest) := by
  simp only [modemToClientStep, pyReadline_append lineBody (payload ++ rest) hNoNl,
    hStart, hRecv, Bool.and_self, if_true, hLen]
  rw [← hPay, List.take_left, List.drop_left]

/-- C2 witness: the notification `+QIURC: "recv",0,3` followed by a payload
whose bytes spell a protocol token (`OK\r`) and one further byte. -/
theorem c2_recv_notification_witness :
    modemToClientStep
        (strBytes "+QIURC: \"recv\",0,3" ++ 10 :: ([79, 75, 13] ++ [70])) =
      some (ModemAction.deliver [79, 75, 13], [70]) :=
  c2_recv_notification (strBytes "+QIURC: \"recv\",0,3") [79, 75, 13] [70] 3
    (by decide) (by decide) (by decide) (by decide) (by decide)

theorem takeN_exact (k : Nat) (xs rest : List Nat) (h : xs.length = k) :
    takeN k (xs ++ rest) = some (xs, rest) := by
  subst h
  have hle : xs.length ≤ (xs ++ rest).length := by
    simp
  rw [takeN, if_pos hle, List.take_left, List.drop_left]

/-- C7 counterexample: a CONNECT request carrying command code 2 (BIND) —
client bytes `05 01 00` then `05 02 00 01 ...` — makes the relay close the
connection having sent only the method-selection reply `05 00`: no SOCKS
failure reply (neither 0x07 nor 0x08) is ever sent. -/
theorem c7_counterexample :
    handle_client [5, 1, 0, 5, 2, 0, 1, 1, 2, 3, 4, 0, 80] true =
      some ([[5, 0]], COutcome.closedNoReply) := by
  rfl

/-- C7 (amended): for every CONNECT request carrying a command code other
than CONNECT, or an address type other than IPv4 literal (1) or domain name
(3), the relay closes the connection without sending any reply after the
method-selection message — no SOCKS failure reply is sent. -/
theorem c7_unsupported_closes_silently (ver nm : Nat) (methods : List Nat)
    (v2 cmd rsv atyp : Nat) (rest : List Nat) (openOK : Bool)
    (hm : methods.length = nm)
    (hbad : cmd ≠ 1 ∨ (atyp ≠ 1 ∧ atyp ≠ 3)) :
    handle_client (ver :: nm :: (methods ++ v2 :: cmd :: rsv :: atyp :: rest))
        openOK =
      some ([[5, 0]], COutcome.closedNoReply) := by
  have h2 : takeN 2 (ver :: nm :: (methods ++ v2 :: cmd :: rsv :: atyp :: rest))
      = some ([ver, nm], methods ++ v2 :: cmd :: rsv :: atyp :: rest) :=
    takeN_exact 2 [ver, nm] _ rfl
  have hm2 : takeN nm (methods ++ v2 :: cmd :: rsv :: atyp :: rest)
      = some (methods, v2 :: cmd :: rsv :: atyp :: rest) :=
    takeN_exact nm methods _ hm
  have h4 : takeN 4 (v2 :: cmd :: rsv :: atyp :: rest)
      = some ([v2, cmd, rsv, atyp], rest) :=
    takeN_exact 4 [v2, cmd, rsv, atyp] _ rfl
  simp only [handle_client, h2, Option.bind_eq_bind, Option.bind_some,
    List.getD, List.getD_cons_succ, List.getD_cons_zero, hm2, h4]
  rcases hbad with hc | ⟨ha1, ha3⟩
  · simp [hm2, h4, List.getD, hc]
  · by_cases hc : cmd = 1
    · subst hc
      simp [hm2, h4, List.getD, ha1, ha3]
    · simp [hm2, h4, List.getD, hc]

/-- C7 witness: command code 2 with a well-formed remainder. -/
theorem c7_unsupported_closes_silently_witness :
    handle_client (5 :: 1 :: ([0] ++ 5 :: 2 :: 0 :: 1 :: [1, 2, 3, 4, 0, 80]))
        true =
      some ([[5, 0]], COutcome.closedNoReply) :=
  c7_unsupported_closes_silently 5 1 [0] 5 2 0 1 [1, 2, 3, 4, 0, 80] true rfl
    (Or.inl (by decide))

/-- C8: for a well-formed CONNECT request with an IPv4 address, when the
modem open fails the client receives exactly the failure reply
`05 01 00 01 00 00 00 00 00 00` (beginning 0x05 0x01) after the
method-selection message and the connection is closed with no further
protocol exchange; when the open succeeds the client receives exactly
`05 00 00 01` followed by six zero bytes before relaying starts. -/
theorem c8_connect_replies (ver nm : Nat) (methods : List Nat)
    (v2 rsv : Nat) (a4 p2 rest : List Nat)
    (hm : methods.length = nm) (ha : a4.length = 4) (hp : p2.length = 2) :
    handle_client
        (ver :: nm :: (methods ++ v2 :: 1 :: rsv :: 1 :: (a4 ++ (p2 ++ rest))))
        false =
      some ([[5, 0], socksFailReply], COutcome.closedAfterFail)
    ∧ handle_client
        (ver :: nm :: (methods ++ v2 :: 1 :: rsv :: 1 :: (a4 ++ (p2 ++ rest))))
        true =
      some ([[5, 0], socksOkReply], COutcome.relaying)
    ∧ socksFailReply.take 2 = [5, 1]
    ∧ socksOkReply = [5, 0, 0, 1, 0, 0, 0, 0, 0, 0] := by
  have h2 : takeN 2
      (ver :: nm :: (methods ++ v2 :: 1 :: rsv :: 1 :: (a4 ++ (p2 ++ rest))))
      = some ([ver, nm], methods ++ v2 :: 1 :: rsv :: 1 :: (a4 ++ (p2 ++ rest))) :=
    takeN_exact 2 [ver, nm] _ rfl
  have hm2 : takeN nm (methods ++ v2 :: 1 :: rsv :: 1 :: (a4 ++ (p2 ++ rest)))
      = some (methods, v2 :: 1 :: rsv :: 1 :: (a4 ++ (p2 ++ rest))) :=
    takeN_exact nm methods _ hm
  have h4 : takeN 4 (v2 :: 1 :: rsv :: 1 :: (a4 ++ (p2 ++ rest)))
      = some ([v2, 1, rsv, 1], a4 ++ (p2 ++ rest)) :=
    takeN_exact 4 [v2, 1, rsv, 1] _ rfl
  have ha4 : takeN 4 (a4 ++ (p2 ++ rest)) = some (a4, p2 ++ rest) :=
    takeN_exact 4 a4 _ ha
  have hp2 : takeN 2 (p2 ++ rest) = some (p2, rest) :=
    takeN_exact 2 p2 _ hp
  refine ⟨?_, ?_, rfl, rfl⟩ <;>
    simp [handle_client, h2, hm2, h4, ha4, hp2, List.getD]

/-- C8 witness: the end-to-end CONNECT bytes of the specification's scenario
(IPv4 93.184.216.34, port 80), evaluated for both open outcomes. -/
theorem c8_connect_replies_witness :
    handle_client
        (5 :: 1 :: ([0] ++ 5 :: 1 :: 0 :: 1 :: ([93, 184, 216, 34] ++ ([0, 80] ++ []))))
        false =
      some ([[5, 0], socksFailReply], COutcome.closedAfterFail)
    ∧ handle_client
        (5 :: 1 :: ([0] ++ 5 :: 1 :: 0 :: 1 :: ([93, 184, 216, 34] ++ ([0, 80] ++ []))))
        true =
      some ([[5, 0], socksOkReply], COutcome.relaying) :=
  ⟨(c8_connect_replies 5 1 [0] 5 0 [93, 184, 216, 34] [0, 80] [] rfl rfl rfl).1,
   (c8_connect_replies 5 1 [0] 5 0 [93, 184, 216, 34] [0, 80] [] rfl rfl rfl).2.1⟩

/-- C9 counterexample: no deadline bounds `_wait_for_rdy`: for every
candidate deadline `d`, a stream of `d` noise lines (here the single byte
`X` each) leaves the boot wait still blocked — it can block indefinitely. -/
theorem c9_counterexample : ¬ waitForRdyHasDeadline := by
  rintro ⟨d, h⟩
  have hx := h (List.replicate d [88]) (by simp)
  simp only [_wait_for_rdy_returned, List.any_eq_true] at hx
  obtain ⟨l, hl, hbeq⟩ := hx
  rw [List.eq_of_mem_replicate hl] at hbeq
  exact absurd hbeq (by decide)

/-- C9 (amended): the command and send paths carry explicit timeouts, but
the boot wait for the modem's `RDY` banner does not: it terminates exactly
when a line stripping to `RDY` arrives, and blocks forever on any stream
without one (the serial port itself is opened with `timeout=None`). -/
theorem c9_wait_for_rdy_termination (lines : List (List Nat)) :
    _wait_for_rdy_returned lines = true ↔
      ∃ l ∈ lines, lineText l = "RDY".toList := by
  simp only [_wait_for_rdy_returned, List.any_eq_true, beq_iff_eq]

/-- C1: with two concurrent clients sharing the modem, the demo trace is a
realizable interleaving of the two threads' `send_raw` operation sequences
(the source has no lock to forbid it), and at one of its instants both
command exchanges are simultaneously open on the serial channel — the
channel observes two overlapping command exchanges, violating the claimed
exclusivity. -/
theorem c1_exchanges_can_overlap :
    isInterleavingOf overlapDemoTrace (sendRawOps 0 [65]) (sendRawOps 0 [66]) = true
    ∧ overlappingExchanges overlapDemoTrace
        (sendRawOps 0 [65]) (sendRawOps 0 [66]) = true := by
  exact ⟨by decide, by decide⟩
